import Mathlib

/-!
Shallow embedding of `get_ndc_with_ingredient_name.py`.

The program is a sequential three-stage enrichment pipeline over the RxNav
REST service.  Remote I/O is modelled by a function from the four request
shapes the program issues to the transport outcome of the corresponding
`requests.get` call; everything downstream of `safe_get_json` is a pure
function of the JSON bodies, and is translated line by line below.
-/

/-- JSON values, as produced by `response.json()` in Python. -/
inductive Json where
  | null
  | bool (b : Bool)
  | num (n : Int)
  | str (s : String)
  | arr (items : List Json)
  | obj (fields : List (String × Json))

mutual

/-- Decidable equality for JSON values, by mutual recursion with the list
forms (the nested inductive prevents the derived instance). -/
def Json.decEq : (a b : Json) → Decidable (a = b)
  | .null, .null => isTrue rfl
  | .bool a, .bool b =>
    match Bool.decEq a b with
    | isTrue h => isTrue (congrArg Json.bool h)
    | isFalse h => isFalse (fun hc => h (Json.bool.inj hc))
  | .num a, .num b =>
    match Int.decEq a b with
    | isTrue h => isTrue (congrArg Json.num h)
    | isFalse h => isFalse (fun hc => h (Json.num.inj hc))
  | .str a, .str b =>
    match String.decEq a b with
    | isTrue h => isTrue (congrArg Json.str h)
    | isFalse h => isFalse (fun hc => h (Json.str.inj hc))
  | .arr a, .arr b =>
    match Json.decEqList a b with
    | isTrue h => isTrue (congrArg Json.arr h)
    | isFalse h => isFalse (fun hc => h (Json.arr.inj hc))
  | .obj a, .obj b =>
    match Json.decEqFields a b with
    | isTrue h => isTrue (congrArg Json.obj h)
    | isFalse h => isFalse (fun hc => h (Json.obj.inj hc))
  | .null, .bool _ | .null, .num _ | .null, .str _ | .null, .arr _ | .null, .obj _
  | .bool _, .null | .bool _, .num _ | .bool _, .str _ | .bool _, .arr _ | .bool _, .obj _
  | .num _, .null | .num _, .bool _ | .num _, .str _ | .num _, .arr _ | .num _, .obj _
  | .str _, .null | .str _, .bool _ | .str _, .num _ | .str _, .arr _ | .str _, .obj _
  | .arr _, .null | .arr _, .bool _ | .arr _, .num _ | .arr _, .str _ | .arr _, .obj _
  | .obj _, .null | .obj _, .bool _ | .obj _, .num _ | .obj _, .str _ | .obj _, .arr _ =>
    isFalse (fun hc => Json.noConfusion hc)

/-- Decidable equality for lists of JSON values. -/
def Json.decEqList : (a b : List Json) → Decidable (a = b)
  | [], [] => isTrue rfl
  | a :: as, b :: bs =>
    match Json.decEq a b, Json.decEqList as bs with
    | isTrue h1, isTrue h2 => isTrue (by rw [h1, h2])
    | isFalse h1, _ => isFalse (fun hc => h1 (List.head_eq_of_cons_eq hc))
    | _, isFalse h2 => isFalse (fun hc => h2 (List.tail_eq_of_cons_eq hc))
  | [], _ :: _ => isFalse (fun hc => List.noConfusion hc)
  | _ :: _, [] => isFalse (fun hc => List.noConfusion hc)

/-- Decidable equality for JSON object field lists. -/
def Json.decEqFields : (a b : List (String × Json)) → Decidable (a = b)
  | [], [] => isTrue rfl
  | (k1, v1) :: as, (k2, v2) :: bs =>
    match String.decEq k1 k2, Json.decEq v1 v2, Json.decEqFields as bs with
    | isTrue hk, isTrue hv, isTrue ht => isTrue (by rw [hk, hv, ht])
    | isFalse hk, _, _ =>
      isFalse (fun hc => hk (congrArg Prod.fst (List.head_eq_of_cons_eq hc)))
    | _, isFalse hv, _ =>
      isFalse (fun hc => hv (congrArg Prod.snd (List.head_eq_of_cons_eq hc)))
    | _, _, isFalse ht => isFalse (fun hc => ht (List.tail_eq_of_cons_eq hc))
  | [], _ :: _ => isFalse (fun hc => List.noConfusion hc)
  | _ :: _, [] => isFalse (fun hc => List.noConfusion hc)

end

instance : DecidableEq Json := Json.decEq

/-- Python truthiness of a JSON value (what `if x:` tests). -/
def Json.truthy : Json → Bool
  | .null => false
  | .bool b => b
  | .num n => n != 0
  | .str s => !(s == "")
  | .arr items => !items.isEmpty
  | .obj fields => !fields.isEmpty

/-- Python `d.get(key, fallback)` on a JSON object.  The source only applies
`.get` to values that the service returns as objects (or to the `{}` that
`safe_get_json` substitutes); a non-object receiver yields the fallback. -/
def Json.getd : Json → String → Json → Json
  | .obj fields, key, fallback =>
    match fields.lookup key with
    | some v => v
    | none => fallback
  | _, _, fallback => fallback

/-- Python `d.get(key)` (fallback `None`). -/
def Json.get (j : Json) (key : String) : Json :=
  j.getd key .null

/-- Elements traversed by `for x in v` when `v` is a JSON array; the source
only iterates over values the service returns as arrays (or the `[]`
fallbacks), and a non-array contributes nothing. -/
def Json.elems : Json → List Json
  | .arr items => items
  | _ => []

/-- Outcome of one `requests.get` call, as observable by `safe_get_json`
(lines 8-18).  `requests.get` does not raise on an HTTP error status, so an
error response with a parseable non-blank body is delivered as its parsed
body just like a success. -/
inductive FetchResult where
  | ok (body : Json)
  | httpErrorBody (body : Json)
  | emptyBody
  | requestError
  | parseError
deriving DecidableEq

/-- Lines 8-18: `safe_get_json`.  A blank body, a raised
`requests.RequestException`, or a `json.JSONDecodeError` all become `{}`;
any parsed body (whatever the HTTP status) is returned as is. -/
def safe_get_json : FetchResult → Json
  | .ok body => body
  | .httpErrorBody body => body
  | .emptyBody => .obj []
  | .requestError => .obj []
  | .parseError => .obj []

/-- The four remote call sites, one constructor per URL template built by the
source (lines 48, 64, 89, 97); the parameter is the value interpolated into
the URL. -/
inductive Request where
  | rxcuiByName (ingredient : String)
  | allRelated (rxcui : Json)
  | ndcs (rxcui : Json)
  | ndcProperties (ndc : Json)
deriving DecidableEq

/-- Lines 29-31: the hard-coded ingredient list. -/
def ingredients : List String :=
  ["Exenatide", "Liraglutide", "Semaglutide", "Dulaglutide", "Lixisenatide",
   "Albiglutide", "Tirzepatide"]

/-- Line 34: term types for drug products expected to have NDC codes. -/
def drug_product_term_types : List String := ["SCD", "SBD", "BPCK", "GPCK"]

/-- Lines 73-79: processing of one concept-property entry `cp`.  The entry is
kept only if its `tty` is one of `drug_product_term_types`, its `rxcui` is
truthy, and that `rxcui` is not already a key of the accumulated dictionary
(Python `related_id not in related_rxcui_dict`); the dictionary is an
insertion-ordered association list, as Python dicts are. -/
def addConceptProperty (acc : List (Json × Json)) (cp : Json) : List (Json × Json) :=
  if cp.get "tty" ∈ drug_product_term_types.map Json.str then
    let related_id := cp.get "rxcui"
    let name := cp.get "name"
    if related_id.truthy = true ∧ related_id ∉ acc.map Prod.fst then
      acc ++ [(related_id, name)]
    else acc
  else acc

/-- Lines 70-79: scan every `conceptProperties` entry of every concept group
of one `allrelated` response. -/
def addConceptGroups (acc : List (Json × Json)) (concept_groups : List Json) :
    List (Json × Json) :=
  concept_groups.foldl
    (fun acc group => ((group.getd "conceptProperties" (.arr [])).elems).foldl
      addConceptProperty acc) acc

/-- Lines 63-82: one iteration of Step 2 for a single initial RxCUI. -/
def expandRelated (fetch : Request → Json) (acc : List (Json × Json)) (rxcui : Json) :
    List (Json × Json) :=
  let related_data := fetch (.allRelated rxcui)
  let concept_groups :=
    (related_data.getd "allRelatedGroup" (.obj [])).getd "conceptGroup" (.arr [])
  addConceptGroups acc concept_groups.elems

/-- Lines 50-51: the `rxnormId` list extracted from the name-lookup response. -/
def initialRxcuiList (fetch : Request → Json) (ingredient : String) : Json :=
  let initial_data := fetch (.rxcuiByName ingredient)
  (initial_data.getd "idGroup" (.obj [])).getd "rxnormId" (.arr [])

/-- Lines 60-82: `related_rxcui_dict`, built fresh for each ingredient by
folding Step 2 over the initial RxCUI list. -/
def relatedRxcuiDict (fetch : Request → Json) (ingredient : String) :
    List (Json × Json) :=
  (initialRxcuiList fetch ingredient).elems.foldl (expandRelated fetch) []

/-- Line 91: the `ndc` list extracted from the `ndcs` response for one RxCUI. -/
def ndcListOf (fetch : Request → Json) (rxcui : Json) : Json :=
  let ndc_data := fetch (.ndcs rxcui)
  ((ndc_data.getd "ndcGroup" (.obj [])).getd "ndcList" (.obj [])).getd "ndc" (.arr [])

/-- Lines 99-100: the `ndcProperty` payload for one NDC code. -/
def ndcPropertyOf (fetch : Request → Json) (ndc : Json) : Json :=
  let ndc_prop_data := fetch (.ndcProperties ndc)
  (ndc_prop_data.getd "ndcPropertyGroup" (.obj [])).getd "ndcProperty" .null

/-- Lines 99-104: `ndc_description`.  A non-empty list payload contributes the
`name` of its first entry, an object payload its own `name`, and anything
else (absent payload, empty list, scalar) leaves the description `None`. -/
def ndcDescriptionOf (fetch : Request → Json) (ndc : Json) : Json :=
  match ndcPropertyOf fetch ndc with
  | .arr (first :: _) => first.get "name"
  | .obj fields => (Json.obj fields).get "name"
  | _ => .null

/-- One element of `results` (lines 106-120): the record appended per
(ingredient, rxcui, ndc) observation. -/
structure OutputRecord where
  ingredient : String
  rxcui : Json
  ndc : Json
  rxcui_description : Json
  ndc_description : Json
deriving DecidableEq

/-- Lines 89-120: the records appended for one related RxCUI.  A truthy NDC
list yields one record per code, with the description fetched per code; an
empty (or otherwise falsy) list yields exactly one record with `None` code
and `None` description. -/
def recordsForRxcui (fetch : Request → Json) (ingredient : String)
    (rxcui rxcui_description : Json) : List OutputRecord :=
  let ndc_list := ndcListOf fetch rxcui
  if ndc_list.truthy then
    ndc_list.elems.map (fun ndc =>
      { ingredient := ingredient, rxcui := rxcui, ndc := ndc,
        rxcui_description := rxcui_description,
        ndc_description := ndcDescriptionOf fetch ndc })
  else
    [{ ingredient := ingredient, rxcui := rxcui, ndc := .null,
       rxcui_description := rxcui_description, ndc_description := .null }]

/-- Lines 44-130: the loop body for one ingredient.  An ingredient whose
initial RxCUI list is falsy is skipped (`continue`, line 55) and contributes
no records; otherwise Step 3 appends records for each entry of
`related_rxcui_dict` in insertion order. -/
def processIngredient (fetch : Request → Json) (ingredient : String) :
    List OutputRecord :=
  if (initialRxcuiList fetch ingredient).truthy then
    (relatedRxcuiDict fetch ingredient).foldl
      (fun results p => results ++ recordsForRxcui fetch ingredient p.1 p.2) []
  else []

/-- Lines 37-130: the final contents of the global `results` list, obtained
by appending each ingredient's records in list order. -/
def runCore (fetch : Request → Json) : List OutputRecord :=
  ingredients.foldl
    (fun results ingredient => results ++ processIngredient fetch ingredient) []

/-- Line 129: the snapshot of `results` after the first `k` ingredients
(`temp_df = pd.DataFrame(results)`). -/
def runCoreUpTo (fetch : Request → Json) (k : Nat) : List OutputRecord :=
  (ingredients.take k).foldl
    (fun results ingredient => results ++ processIngredient fetch ingredient) []

/-- The whole program over raw transport outcomes: every remote call goes
through `safe_get_json` (lines 50, 66, 90, 98). -/
def runResults (env : Request → FetchResult) : List OutputRecord :=
  runCore (fun r => safe_get_json (env r))

/-- Line 134: `df = pd.DataFrame(results)` — the final table holds exactly
the rows of `results`, in order; no row is filtered out. -/
def finalDf (env : Request → FetchResult) : List OutputRecord :=
  runResults env

/-- All concept-property entries scanned during Step 2 for one ingredient
(the values bound to `cp` on line 72 across all responses). -/
def conceptEntries (fetch : Request → Json) (ingredient : String) : List Json :=
  (initialRxcuiList fetch ingredient).elems.flatMap (fun rxcui =>
    (((fetch (.allRelated rxcui)).getd "allRelatedGroup" (.obj [])).getd
        "conceptGroup" (.arr [])).elems.flatMap (fun group =>
      (group.getd "conceptProperties" (.arr [])).elems))

/-- Name-lookup body `{"idGroup": {"rxnormId": [..]}}` used by the tests. -/
def bodyIdGroup (ids : List Json) : Json :=
  .obj [("idGroup", .obj [("rxnormId", .arr ids)])]

/-- One concept-property entry `{"tty": .., "rxcui": .., "name": ..}`. -/
def bodyConcept (tty rxcui conceptName : Json) : Json :=
  .obj [("tty", tty), ("rxcui", rxcui), ("name", conceptName)]

/-- An `allrelated` body with a single concept group holding `cps`. -/
def bodyAllRelated (cps : List Json) : Json :=
  .obj [("allRelatedGroup", .obj [("conceptGroup",
    .arr [.obj [("conceptProperties", .arr cps)]])])]

/-- An `ndcs` body `{"ndcGroup": {"ndcList": {"ndc": [..]}}}`. -/
def bodyNdcs (codes : List Json) : Json :=
  .obj [("ndcGroup", .obj [("ndcList", .obj [("ndc", .arr codes)])])]

/-- An `ndcproperties` body `{"ndcPropertyGroup": {"ndcProperty": payload}}`. -/
def bodyNdcProps (payload : Json) : Json :=
  .obj [("ndcPropertyGroup", .obj [("ndcProperty", payload)])]

/-- Environment in which Exenatide resolves, expands to concept `311036`, and
that concept's NDC lookup comes back empty; all other calls return blank
bodies. -/
def envC1 : Request → FetchResult
  | .rxcuiByName "Exenatide" => .ok (bodyIdGroup [.str "84108"])
  | .allRelated (.str "84108") => .ok (bodyAllRelated
      [bodyConcept (.str "SCD") (.str "311036")
        (.str "exenatide 250 MCG/ML Injectable Solution")])
  | _ => .emptyBody

/-- Environment whose name lookup for Exenatide is an HTTP error response
carrying a parseable JSON body; the rest of the pipeline has data. -/
def envC2a : Request → FetchResult
  | .rxcuiByName "Exenatide" => .httpErrorBody (bodyIdGroup [.str "84108"])
  | .allRelated (.str "84108") => .ok (bodyAllRelated
      [bodyConcept (.str "SCD") (.str "311036")
        (.str "exenatide 250 MCG/ML Injectable Solution")])
  | .ndcs (.str "311036") => .ok (bodyNdcs [.str "00002-1433-01"])
  | .ndcProperties (.str "00002-1433-01") => .ok (bodyNdcProps
      (.arr [.obj [("name", .str "exenatide 250 MCG/ML Injectable Solution [Byetta]")]]))
  | _ => .emptyBody

/-- Same environment as `envC2a` except that the name lookup for Exenatide is
a legitimately empty (successfully parsed `{}`) response. -/
def envC2b : Request → FetchResult
  | .rxcuiByName "Exenatide" => .ok (.obj [])
  | .allRelated (.str "84108") => .ok (bodyAllRelated
      [bodyConcept (.str "SCD") (.str "311036")
        (.str "exenatide 250 MCG/ML Injectable Solution")])
  | .ndcs (.str "311036") => .ok (bodyNdcs [.str "00002-1433-01"])
  | .ndcProperties (.str "00002-1433-01") => .ok (bodyNdcProps
      (.arr [.obj [("name", .str "exenatide 250 MCG/ML Injectable Solution [Byetta]")]]))
  | _ => .emptyBody

/-- Environment in which two duplicate NDC codes come back for one concept. -/
def envC8 : Request → FetchResult
  | .rxcuiByName "Exenatide" => .ok (bodyIdGroup [.str "84108"])
  | .allRelated (.str "84108") => .ok (bodyAllRelated
      [bodyConcept (.str "SCD") (.str "311036") (.str "conceptname")])
  | .ndcs (.str "311036") => .ok (bodyNdcs [.str "X", .str "X"])
  | _ => .emptyBody

/-- Post-`safe_get_json` view of `envC2a`; the end-to-end example body set. -/
def fetchEx : Request → Json :=
  fun q => safe_get_json (envC2a q)

/-- Fetch function in which two different ingredients both discover concept
`111`, under different term types and names. -/
def fetchC5 : Request → Json
  | .rxcuiByName "Exenatide" => bodyIdGroup [.str "1"]
  | .rxcuiByName "Liraglutide" => bodyIdGroup [.str "2"]
  | .allRelated (.str "1") => bodyAllRelated [bodyConcept (.str "SCD") (.str "111") (.str "n1")]
  | .allRelated (.str "2") => bodyAllRelated [bodyConcept (.str "SBD") (.str "111") (.str "n2")]
  | _ => .obj []

/-- Fetch function all of whose responses are empty objects. -/
def fetchEmpty : Request → Json :=
  fun _ => .obj []

/-- Folding append of per-element blocks over a list concatenates the blocks
in list order. -/
theorem foldl_append_flatten {α β : Type} (f : α → List β) (l : List α) (acc : List β) :
    l.foldl (fun acc a => acc ++ f a) acc = acc ++ (l.map f).flatten := by
  induction l generalizing acc with
  | nil => simp
  | cons a t ih => simp [List.foldl_cons, ih]

/-- The final `results` list is the concatenation of the per-ingredient
record blocks, in ingredient-list order. -/
theorem runCore_eq_flatten (fetch : Request → Json) :
    runCore fetch = (ingredients.map (processIngredient fetch)).flatten := by
  unfold runCore
  simpa using foldl_append_flatten (processIngredient fetch) ingredients []

/-- Values that are falsy in Python contribute no elements to iteration. -/
theorem Json.elems_eq_nil_of_not_truthy {j : Json} (h : j.truthy = false) :
    j.elems = [] := by
  cases j <;> simp_all [Json.truthy, Json.elems, List.isEmpty_iff]

/-- One ingredient's records are the concatenation, in insertion order over
`related_rxcui_dict`, of each related RxCUI's record block. -/
theorem processIngredient_eq_flatten (fetch : Request → Json) (ing : String) :
    processIngredient fetch ing =
      ((relatedRxcuiDict fetch ing).map
        (fun p => recordsForRxcui fetch ing p.1 p.2)).flatten := by
  unfold processIngredient
  by_cases h : (initialRxcuiList fetch ing).truthy = true
  · rw [if_pos h]
    simpa using foldl_append_flatten
      (fun p : Json × Json => recordsForRxcui fetch ing p.1 p.2)
      (relatedRxcuiDict fetch ing) []
  · rw [if_neg h]
    have hdict : relatedRxcuiDict fetch ing = [] := by
      unfold relatedRxcuiDict
      rw [Json.elems_eq_nil_of_not_truthy (Bool.eq_false_iff.mpr h)]
      rfl
    rw [hdict]
    rfl

/-- C1: the claim states that the final table is produced by filtering out
every row whose `ndc` is null.  The comment on line 132 announces that
removal, but line 134 only runs `pd.DataFrame(results)`: in `envC1` the
concept `311036` yields no NDC codes and its null-`ndc` row survives into
the final table. -/
theorem C1_final_df_keeps_null_ndc_row :
    finalDf envC1 =
      [{ ingredient := "Exenatide", rxcui := Json.str "311036", ndc := Json.null,
         rxcui_description := Json.str "exenatide 250 MCG/ML Injectable Solution",
         ndc_description := Json.null }] ∧
    Json.null ∈ (finalDf envC1).map OutputRecord.ndc := by
  refine ⟨by decide, by decide⟩

/-- C2, counterexample: an HTTP error status does not collapse to an empty
structure when its body is non-blank parseable JSON, because `requests.get`
never raises on status and `safe_get_json` never inspects it.  `envC2a` has
an HTTP error carrying data at the name-lookup site where `envC2b` has a
legitimately empty response, and the two runs differ. -/
theorem C2_http_error_body_not_collapsed :
    envC2a (Request.rxcuiByName "Exenatide") =
      FetchResult.httpErrorBody (bodyIdGroup [Json.str "84108"]) ∧
    envC2b (Request.rxcuiByName "Exenatide") = FetchResult.ok (Json.obj []) ∧
    runResults envC2a ≠ runResults envC2b := by
  refine ⟨rfl, rfl, by decide⟩

/-- C2, amended: a network error, an empty body, or a JSON-parse failure at
any one call site produces exactly the same final records as a legitimately
empty (parsed `{}`) response at that site; HTTP error status alone is not
collapsed — an HTTP error response is processed as whatever its body parses
to (so it also collapses when the body is blank or unparseable). -/
theorem C2_transport_failure_collapses (env : Request → FetchResult) (q : Request)
    (fr : FetchResult)
    (h : fr = FetchResult.emptyBody ∨ fr = FetchResult.requestError ∨
      fr = FetchResult.parseError) :
    runResults (Function.update env q fr) =
      runResults (Function.update env q (FetchResult.ok (Json.obj []))) := by
  unfold runResults
  refine congrArg runCore (funext fun r => ?_)
  by_cases hr : r = q
  · subst hr
    rw [Function.update_same, Function.update_same]
    rcases h with h | h | h <;> rw [h] <;> rfl
  · rw [Function.update_noteq hr, Function.update_noteq hr]

/-- Witness for C2: a raised request error at the `ndcs` call site yields
the same run as a parsed empty object there. -/
theorem C2_transport_failure_collapses_witness :
    runResults (Function.update envC2b (Request.ndcs (Json.str "311036"))
      FetchResult.requestError) =
    runResults (Function.update envC2b (Request.ndcs (Json.str "311036"))
      (FetchResult.ok (Json.obj []))) :=
  C2_transport_failure_collapses envC2b (Request.ndcs (Json.str "311036"))
    FetchResult.requestError (Or.inr (Or.inl rfl))

/-- C3: an ingredient whose extracted initial RxCUI list is empty produces
no output records, and the run is the concatenation of the per-ingredient
blocks, so the remaining ingredients are still processed in order. -/
theorem C3_empty_lookup_skips (fetch : Request → Json) (ing : String)
    (h : initialRxcuiList fetch ing = Json.arr []) :
    processIngredient fetch ing = [] ∧
    runCore fetch = (ingredients.map (processIngredient fetch)).flatten := by
  refine ⟨?_, runCore_eq_flatten fetch⟩
  unfold processIngredient
  rw [h]
  rfl

/-- Witness for C3: under the all-empty fetch function, every lookup is
empty and Exenatide contributes nothing. -/
theorem C3_empty_lookup_skips_witness :
    processIngredient fetchEmpty "Exenatide" = [] ∧
    runCore fetchEmpty = (ingredients.map (processIngredient fetchEmpty)).flatten :=
  C3_empty_lookup_skips fetchEmpty "Exenatide" rfl

/-- C6: a retained RxCUI whose extracted NDC list is empty (which is also
what an absent field or a failed call extracts to) appends exactly one
record, with null `ndc` and null `ndc description` and the other three
fields populated. -/
theorem C6_empty_ndc_list_single_null_record (fetch : Request → Json) (ing : String)
    (rxcui desc : Json) (h : ndcListOf fetch rxcui = Json.arr []) :
    recordsForRxcui fetch ing rxcui desc =
      [{ ingredient := ing, rxcui := rxcui, ndc := Json.null,
         rxcui_description := desc, ndc_description := Json.null }] := by
  unfold recordsForRxcui
  rw [h]
  rfl

/-- Witness for C6 at a concrete RxCUI with no NDC data. -/
theorem C6_empty_ndc_list_single_null_record_witness :
    recordsForRxcui fetchC5 "Exenatide" (Json.str "111") (Json.str "n1") =
      [{ ingredient := "Exenatide", rxcui := Json.str "111", ndc := Json.null,
         rxcui_description := Json.str "n1", ndc_description := Json.null }] :=
  C6_empty_ndc_list_single_null_record fetchC5 "Exenatide" (Json.str "111")
    (Json.str "n1") rfl

/-- C7: a retained RxCUI with a non-empty extracted code list appends one
record per code, in order; each record carries the description extracted
from that code's property payload — the `name` of the first entry of a
non-empty list payload, the `name` of an object payload, and null when the
payload is absent or an empty list. -/
theorem C7_one_record_per_code (fetch : Request → Json) (ing : String)
    (rxcui desc : Json) (codes : List Json)
    (h : ndcListOf fetch rxcui = Json.arr codes) (hne : codes ≠ []) :
    ((recordsForRxcui fetch ing rxcui desc).length = codes.length ∧
      (recordsForRxcui fetch ing rxcui desc).map OutputRecord.ndc = codes) ∧
    (∀ r ∈ recordsForRxcui fetch ing rxcui desc,
      r.ingredient = ing ∧ r.rxcui = rxcui ∧ r.rxcui_description = desc ∧
      r.ndc_description = ndcDescriptionOf fetch r.ndc) ∧
    (∀ ndc first rest, ndcPropertyOf fetch ndc = Json.arr (first :: rest) →
      ndcDescriptionOf fetch ndc = first.get "name") ∧
    (∀ ndc fields, ndcPropertyOf fetch ndc = Json.obj fields →
      ndcDescriptionOf fetch ndc = (Json.obj fields).get "name") ∧
    (∀ ndc, ndcPropertyOf fetch ndc = Json.null ∨ ndcPropertyOf fetch ndc = Json.arr [] →
      ndcDescriptionOf fetch ndc = Json.null) := by
  have htr : (Json.arr codes).truthy = true := by
    simp [Json.truthy, List.isEmpty_iff, hne]
  have hrec : recordsForRxcui fetch ing rxcui desc =
      codes.map (fun ndc =>
        { ingredient := ing, rxcui := rxcui, ndc := ndc,
          rxcui_description := desc,
          ndc_description := ndcDescriptionOf fetch ndc }) := by
    unfold recordsForRxcui
    rw [h, if_pos htr]
    rfl
  refine ⟨⟨?_, ?_⟩, ?_, ?_, ?_, ?_⟩
  · rw [hrec, List.length_map]
  · rw [hrec, List.map_map]
    exact List.map_id codes
  · intro r hr
    rw [hrec] at hr
    obtain ⟨c, hc, rfl⟩ := List.mem_map.mp hr
    exact ⟨rfl, rfl, rfl, rfl⟩
  · intro ndc first rest hp
    unfold ndcDescriptionOf
    rw [hp]
  · intro ndc fields hp
    unfold ndcDescriptionOf
    rw [hp]
  · intro ndc hp
    unfold ndcDescriptionOf
    rcases hp with hp | hp <;> rw [hp]

/-- Witness for C7 at the end-to-end example data: one code, one record. -/
theorem C7_one_record_per_code_witness :
    (recordsForRxcui fetchEx "Exenatide" (Json.str "311036") (Json.str "d")).length =
      [Json.str "00002-1433-01"].length ∧
    (recordsForRxcui fetchEx "Exenatide" (Json.str "311036") (Json.str "d")).map
      OutputRecord.ndc = [Json.str "00002-1433-01"] :=
  (C7_one_record_per_code fetchEx "Exenatide" (Json.str "311036") (Json.str "d")
    [Json.str "00002-1433-01"] rfl (List.cons_ne_nil _ _)).1

/-- Unfolding lemma for one Step 2 iteration. -/
theorem expandRelated_def (fetch : Request → Json) (acc : List (Json × Json)) (rx : Json) :
    expandRelated fetch acc rx =
      addConceptGroups acc ((((fetch (.allRelated rx)).getd "allRelatedGroup"
        (.obj [])).getd "conceptGroup" (.arr [])).elems) := rfl

/-- Unfolding lemma for one concept group of `addConceptGroups`. -/
theorem addConceptGroups_cons (acc : List (Json × Json)) (g : Json) (t : List Json) :
    addConceptGroups acc (g :: t) =
      addConceptGroups (((g.getd "conceptProperties" (Json.arr [])).elems).foldl
        addConceptProperty acc) t := rfl

/-- A key of the dictionary after one entry is an old key, or the entry's
accepted and truthy `rxcui`. -/
theorem mem_keys_addConceptProperty {acc : List (Json × Json)} {cp id : Json}
    (h : id ∈ (addConceptProperty acc cp).map Prod.fst) :
    id ∈ acc.map Prod.fst ∨
      (cp.get "tty" ∈ drug_product_term_types.map Json.str ∧
        cp.get "rxcui" = id ∧ (cp.get "rxcui").truthy = true) := by
  simp only [addConceptProperty] at h
  split at h
  · split at h
    · rename_i h1 h2
      rw [List.map_append] at h
      rcases List.mem_append.mp h with hm | hm
      · exact Or.inl hm
      · simp only [List.map_cons, List.map_nil, List.mem_singleton] at hm
        subst hm
        exact Or.inr ⟨h1, rfl, h2.1⟩
    · exact Or.inl h
  · exact Or.inl h

/-- Keys after a list of entries trace back to old keys or to an accepted,
truthy entry of the list. -/
theorem mem_keys_foldl_addConceptProperty {cps : List Json} :
    ∀ {acc : List (Json × Json)} {id : Json},
      id ∈ (cps.foldl addConceptProperty acc).map Prod.fst →
      id ∈ acc.map Prod.fst ∨
        ∃ cp ∈ cps, cp.get "tty" ∈ drug_product_term_types.map Json.str ∧
          cp.get "rxcui" = id ∧ (cp.get "rxcui").truthy = true := by
  induction cps with
  | nil => intro acc id h; exact Or.inl h
  | cons c t ih =>
    intro acc id h
    rw [List.foldl_cons] at h
    rcases ih h with hm | ⟨cp, hcp, hq⟩
    · rcases mem_keys_addConceptProperty hm with hm' | hq
      · exact Or.inl hm'
      · exact Or.inr ⟨c, List.mem_cons_self c t, hq⟩
    · exact Or.inr ⟨cp, List.mem_cons_of_mem c hcp, hq⟩

/-- Keys after a list of concept groups trace back to old keys or to an
accepted, truthy entry of one of the groups. -/
theorem mem_keys_addConceptGroups {gs : List Json} :
    ∀ {acc : List (Json × Json)} {id : Json},
      id ∈ (addConceptGroups acc gs).map Prod.fst →
      id ∈ acc.map Prod.fst ∨
        ∃ g ∈ gs, ∃ cp ∈ (g.getd "conceptProperties" (Json.arr [])).elems,
          cp.get "tty" ∈ drug_product_term_types.map Json.str ∧
          cp.get "rxcui" = id ∧ (cp.get "rxcui").truthy = true := by
  induction gs with
  | nil => intro acc id h; exact Or.inl h
  | cons g t ih =>
    intro acc id h
    rw [addConceptGroups_cons] at h
    rcases ih h with hm | ⟨g', hg', hq⟩
    · rcases mem_keys_foldl_addConceptProperty hm with hm' | ⟨cp, hcp, hq⟩
      · exact Or.inl hm'
      · exact Or.inr ⟨g, List.mem_cons_self g t, cp, hcp, hq⟩
    · exact Or.inr ⟨g', List.mem_cons_of_mem g hg', hq⟩

/-- Keys after Step 2 over a list of initial RxCUIs trace back to an
accepted, truthy entry of one of the fetched responses. -/
theorem mem_keys_foldl_expandRelated {fetch : Request → Json} {rxs : List Json} :
    ∀ {acc : List (Json × Json)} {id : Json},
      id ∈ (rxs.foldl (expandRelated fetch) acc).map Prod.fst →
      id ∈ acc.map Prod.fst ∨
        ∃ rx ∈ rxs,
          ∃ g ∈ (((fetch (.allRelated rx)).getd "allRelatedGroup" (.obj [])).getd
              "conceptGroup" (.arr [])).elems,
            ∃ cp ∈ (g.getd "conceptProperties" (Json.arr [])).elems,
              cp.get "tty" ∈ drug_product_term_types.map Json.str ∧
              cp.get "rxcui" = id ∧ (cp.get "rxcui").truthy = true := by
  induction rxs with
  | nil => intro acc id h; exact Or.inl h
  | cons rx t ih =>
    intro acc id h
    rw [List.foldl_cons, expandRelated_def] at h
    rcases ih h with hm | ⟨rx', hrx', hq⟩
    · rcases mem_keys_addConceptGroups hm with hm' | ⟨g, hg, hq⟩
      · exact Or.inl hm'
      · exact Or.inr ⟨rx, List.mem_cons_self rx t, g, hg, hq⟩
    · exact Or.inr ⟨rx', List.mem_cons_of_mem rx hrx', hq⟩

/-- Every key of `related_rxcui_dict` comes from a scanned concept entry
whose term type is accepted and whose `rxcui` is truthy. -/
theorem mem_keys_relatedRxcuiDict {fetch : Request → Json} {ing : String} {id : Json}
    (h : id ∈ (relatedRxcuiDict fetch ing).map Prod.fst) :
    ∃ cp ∈ conceptEntries fetch ing,
      cp.get "tty" ∈ drug_product_term_types.map Json.str ∧
      cp.get "rxcui" = id ∧ (cp.get "rxcui").truthy = true := by
  unfold relatedRxcuiDict at h
  rcases mem_keys_foldl_expandRelated h with hm | ⟨rx, hrx, g, hg, cp, hcp, hq⟩
  · simp at hm
  · refine ⟨cp, ?_, hq⟩
    unfold conceptEntries
    rw [List.mem_flatMap]
    refine ⟨rx, hrx, ?_⟩
    rw [List.mem_flatMap]
    exact ⟨g, hg, hcp⟩

/-- One entry preserves key uniqueness: a key is appended only when absent. -/
theorem keys_nodup_addConceptProperty {acc : List (Json × Json)} {cp : Json}
    (h : (acc.map Prod.fst).Nodup) :
    ((addConceptProperty acc cp).map Prod.fst).Nodup := by
  simp only [addConceptProperty]
  split
  · split
    · rename_i h1 h2
      rw [List.map_append]
      refine List.Nodup.append h (List.nodup_singleton _) ?_
      intro x hx hx'
      simp only [List.map_cons, List.map_nil, List.mem_singleton] at hx'
      subst hx'
      exact h2.2 hx
    · exact h
  · exact h

/-- Key uniqueness is preserved across a list of entries. -/
theorem keys_nodup_foldl_addConceptProperty {cps : List Json} :
    ∀ {acc : List (Json × Json)}, (acc.map Prod.fst).Nodup →
      ((cps.foldl addConceptProperty acc).map Prod.fst).Nodup := by
  induction cps with
  | nil => intro acc h; exact h
  | cons c t ih =>
    intro acc h
    rw [List.foldl_cons]
    exact ih (keys_nodup_addConceptProperty h)

/-- Key uniqueness is preserved across a list of concept groups. -/
theorem keys_nodup_addConceptGroups {gs : List Json} :
    ∀ {acc : List (Json × Json)}, (acc.map Prod.fst).Nodup →
      ((addConceptGroups acc gs).map Prod.fst).Nodup := by
  induction gs with
  | nil => intro acc h; exact h
  | cons g t ih =>
    intro acc h
    rw [addConceptGroups_cons]
    exact ih (keys_nodup_foldl_addConceptProperty h)

/-- Key uniqueness is preserved across Step 2 over the initial RxCUI list. -/
theorem keys_nodup_foldl_expandRelated {fetch : Request → Json} {rxs : List Json} :
    ∀ {acc : List (Json × Json)}, (acc.map Prod.fst).Nodup →
      ((rxs.foldl (expandRelated fetch) acc).map Prod.fst).Nodup := by
  induction rxs with
  | nil => intro acc h; exact h
  | cons rx t ih =>
    intro acc h
    rw [List.foldl_cons, expandRelated_def]
    exact ih (keys_nodup_addConceptGroups h)

/-- The keys of `related_rxcui_dict` are pairwise distinct. -/
theorem keys_nodup_relatedRxcuiDict (fetch : Request → Json) (ing : String) :
    ((relatedRxcuiDict fetch ing).map Prod.fst).Nodup := by
  unfold relatedRxcuiDict
  exact keys_nodup_foldl_expandRelated (by simp)

/-- An entry whose `rxcui` is already a key leaves the dictionary unchanged. -/
theorem addConceptProperty_mem_eq {acc : List (Json × Json)} {cp : Json}
    (h : cp.get "rxcui" ∈ acc.map Prod.fst) :
    addConceptProperty acc cp = acc := by
  simp only [addConceptProperty]
  split
  · split
    · rename_i h2
      exact absurd h h2.2
    · rfl
  · rfl

/-- An entry whose `rxcui` is falsy leaves the dictionary unchanged. -/
theorem addConceptProperty_falsy_id {acc : List (Json × Json)} {cp : Json}
    (h : (cp.get "rxcui").truthy = false) :
    addConceptProperty acc cp = acc := by
  simp only [addConceptProperty]
  split
  · split
    · rename_i h2
      rw [h] at h2
      exact absurd h2.1 Bool.false_ne_true
    · rfl
  · rfl

/-- C4: a concept entry is added to the expanded set only when its `tty` is
one of SCD, SBD, BPCK, GPCK — an entry with any other (or missing) tag is a
no-op, and every identifier in the expanded set traces back to a scanned
entry with an accepted tag. -/
theorem C4_term_type_filter :
    (∀ (acc : List (Json × Json)) (cp : Json),
      cp.get "tty" ∉ drug_product_term_types.map Json.str →
      addConceptProperty acc cp = acc) ∧
    (∀ (fetch : Request → Json) (ing : String) (id : Json),
      id ∈ (relatedRxcuiDict fetch ing).map Prod.fst →
      ∃ cp ∈ conceptEntries fetch ing,
        cp.get "tty" ∈ drug_product_term_types.map Json.str ∧
        cp.get "rxcui" = id) := by
  constructor
  · intro acc cp h
    simp only [addConceptProperty]
    rw [if_neg h]
  · intro fetch ing id h
    obtain ⟨cp, hcp, h1, h2, _⟩ := mem_keys_relatedRxcuiDict h
    exact ⟨cp, hcp, h1, h2⟩

/-- Witness for C4: an `IN`-tagged entry is dropped, and a key of the
concrete dictionary has an accepted-tag source entry. -/
theorem C4_term_type_filter_witness :
    addConceptProperty [] (bodyConcept (Json.str "IN") (Json.str "x") (Json.str "y")) = [] ∧
    ∃ cp ∈ conceptEntries fetchC5 "Exenatide",
      cp.get "tty" ∈ drug_product_term_types.map Json.str ∧
      cp.get "rxcui" = Json.str "111" :=
  ⟨C4_term_type_filter.1 [] (bodyConcept (Json.str "IN") (Json.str "x") (Json.str "y"))
      (by decide),
    C4_term_type_filter.2 fetchC5 "Exenatide" (Json.str "111") (by decide)⟩

/-- C5: within one ingredient the dictionary keys are pairwise distinct, a
repeated identifier leaves the dictionary (and hence the first-seen
description) unchanged, and the dictionary is rebuilt per ingredient — in
`fetchC5` identifier `111` appears in two ingredients' expansions with the
two different descriptions each expansion saw first. -/
theorem C5_dedup_first_seen :
    (∀ (fetch : Request → Json) (ing : String),
      ((relatedRxcuiDict fetch ing).map Prod.fst).Nodup) ∧
    (∀ (acc : List (Json × Json)) (cp : Json),
      cp.get "rxcui" ∈ acc.map Prod.fst → addConceptProperty acc cp = acc) ∧
    (relatedRxcuiDict fetchC5 "Exenatide" = [(Json.str "111", Json.str "n1")] ∧
      relatedRxcuiDict fetchC5 "Liraglutide" = [(Json.str "111", Json.str "n2")]) := by
  exact ⟨keys_nodup_relatedRxcuiDict, fun acc cp h => addConceptProperty_mem_eq h,
    by decide, by decide⟩

/-- Witness for C5: a duplicate identifier with a different name is dropped. -/
theorem C5_dedup_first_seen_witness :
    addConceptProperty [(Json.str "111", Json.str "n1")]
      (bodyConcept (Json.str "SBD") (Json.str "111") (Json.str "other")) =
      [(Json.str "111", Json.str "n1")] :=
  C5_dedup_first_seen.2.1 [(Json.str "111", Json.str "n1")]
    (bodyConcept (Json.str "SBD") (Json.str "111") (Json.str "other")) (by decide)

/-- C10: an entry whose `rxcui` is falsy (missing, null, or the empty
string) never changes the dictionary, and every identifier in any expanded
set is truthy. -/
theorem C10_falsy_id_dropped :
    (∀ (acc : List (Json × Json)) (cp : Json),
      (cp.get "rxcui").truthy = false → addConceptProperty acc cp = acc) ∧
    (∀ (fetch : Request → Json) (ing : String) (id : Json),
      id ∈ (relatedRxcuiDict fetch ing).map Prod.fst → id.truthy = true) := by
  constructor
  · exact fun acc cp h => addConceptProperty_falsy_id h
  · intro fetch ing id h
    obtain ⟨cp, _, _, hid, htr⟩ := mem_keys_relatedRxcuiDict h
    rw [hid] at htr
    exact htr

/-- Witness for C10: an accepted-tag entry with an empty-string identifier
is dropped, and the concrete dictionary key `111` is truthy. -/
theorem C10_falsy_id_dropped_witness :
    addConceptProperty [] (bodyConcept (Json.str "SCD") (Json.str "") (Json.str "n")) = [] ∧
    (Json.str "111").truthy = true :=
  ⟨C10_falsy_id_dropped.1 [] (bodyConcept (Json.str "SCD") (Json.str "") (Json.str "n")) rfl,
    C10_falsy_id_dropped.2 fetchC5 "Exenatide" (Json.str "111") (by decide)⟩

/-- Fields of any record produced for one related RxCUI: the ingredient and
rxcui columns hold exactly the processed ingredient and identifier. -/
theorem mem_recordsForRxcui_fields {fetch : Request → Json} {ing : String}
    {rx d : Json} {r : OutputRecord} (h : r ∈ recordsForRxcui fetch ing rx d) :
    r.ingredient = ing ∧ r.rxcui = rx := by
  simp only [recordsForRxcui] at h
  split at h
  · obtain ⟨c, hc, rfl⟩ := List.mem_map.mp h
    exact ⟨rfl, rfl⟩
  · simp only [List.mem_singleton] at h
    subst h
    exact ⟨rfl, rfl⟩

/-- Every record of one ingredient's block carries that ingredient. -/
theorem mem_processIngredient_ingredient {fetch : Request → Json} {ing : String}
    {r : OutputRecord} (h : r ∈ processIngredient fetch ing) : r.ingredient = ing := by
  rw [processIngredient_eq_flatten] at h
  rw [List.mem_flatten] at h
  obtain ⟨l, hl, hr⟩ := h
  obtain ⟨p, hp, rfl⟩ := List.mem_map.mp hl
  exact (mem_recordsForRxcui_fields hr).1

/-- The ndc column of one RxCUI's block lists the fetched codes in order, or
the single null of the empty-list branch. -/
theorem recordsForRxcui_map_ndc (fetch : Request → Json) (ing : String) (rx d : Json) :
    (recordsForRxcui fetch ing rx d).map OutputRecord.ndc =
      (if (ndcListOf fetch rx).truthy then (ndcListOf fetch rx).elems
       else [Json.null]) := by
  by_cases hc : (ndcListOf fetch rx).truthy = true
  · simp only [recordsForRxcui]
    rw [if_pos hc, if_pos hc, List.map_map]
    exact List.map_id _
  · simp only [recordsForRxcui]
    rw [if_neg hc, if_neg hc]
    rfl

/-- The run is the snapshot after `k` ingredients followed by the remaining
ingredients' blocks: records are only ever appended. -/
theorem runCore_eq_upTo_append (fetch : Request → Json) (k : Nat) :
    runCore fetch = runCoreUpTo fetch k ++
      ((ingredients.drop k).map (processIngredient fetch)).flatten := by
  unfold runCoreUpTo
  rw [runCore_eq_flatten, foldl_append_flatten, List.nil_append,
    ← List.flatten_append, ← List.map_append, List.take_append_drop]

/-- Triple keys of one RxCUI's block are pairwise distinct when the fetched
code list has no duplicates. -/
theorem map_key_recordsForRxcui_nodup (fetch : Request → Json) (ing : String)
    (rx d : Json) (h : ((ndcListOf fetch rx).elems).Nodup) :
    ((recordsForRxcui fetch ing rx d).map
      (fun r => (r.ingredient, r.rxcui, r.ndc))).Nodup := by
  simp only [recordsForRxcui]
  split
  · rw [List.map_map]
    refine List.Nodup.map ?_ h
    intro a b hab
    simpa using congrArg (fun p : String × Json × Json => p.2.2) hab
  · exact List.nodup_singleton _

/-- Triple keys of one RxCUI's block carry that ingredient and identifier. -/
theorem mem_map_key_recordsForRxcui {fetch : Request → Json} {ing : String}
    {rx d : Json} {x : String × Json × Json}
    (h : x ∈ (recordsForRxcui fetch ing rx d).map
      (fun r => (r.ingredient, r.rxcui, r.ndc))) :
    x.1 = ing ∧ x.2.1 = rx := by
  obtain ⟨r, hr, rfl⟩ := List.mem_map.mp h
  obtain ⟨h1, h2⟩ := mem_recordsForRxcui_fields hr
  exact ⟨h1, h2⟩

/-- Triple keys of one ingredient's block are pairwise distinct when every
fetched code list has no duplicates. -/
theorem map_key_processIngredient_nodup (fetch : Request → Json) (ing : String)
    (h : ∀ rx : Json, ((ndcListOf fetch rx).elems).Nodup) :
    ((processIngredient fetch ing).map
      (fun r => (r.ingredient, r.rxcui, r.ndc))).Nodup := by
  rw [processIngredient_eq_flatten, List.map_flatten, List.map_map,
    List.nodup_flatten]
  constructor
  · intro l hl
    obtain ⟨p, hp, rfl⟩ := List.mem_map.mp hl
    exact map_key_recordsForRxcui_nodup fetch ing p.1 p.2 (h p.1)
  · rw [List.pairwise_map]
    have hkeys : (relatedRxcuiDict fetch ing).Pairwise (fun p q => p.1 ≠ q.1) :=
      List.pairwise_map.mp (keys_nodup_relatedRxcuiDict fetch ing)
    refine hkeys.imp ?_
    intro p q hpq x hx hx'
    exact hpq (((mem_map_key_recordsForRxcui hx).2).symm.trans
      (mem_map_key_recordsForRxcui hx').2)

/-- Triple keys of the whole run are pairwise distinct when every fetched
code list has no duplicates. -/
theorem map_key_runCore_nodup (fetch : Request → Json)
    (h : ∀ rx : Json, ((ndcListOf fetch rx).elems).Nodup) :
    ((runCore fetch).map (fun r => (r.ingredient, r.rxcui, r.ndc))).Nodup := by
  rw [runCore_eq_flatten, List.map_flatten, List.map_map, List.nodup_flatten]
  constructor
  · intro l hl
    obtain ⟨ing, hing, rfl⟩ := List.mem_map.mp hl
    exact map_key_processIngredient_nodup fetch ing h
  · rw [List.pairwise_map]
    have hing : ingredients.Nodup := by decide
    refine hing.imp ?_
    intro a b hab x hx hx'
    obtain ⟨r, hr, hkr⟩ := List.mem_map.mp hx
    obtain ⟨r', hr', hkr'⟩ := List.mem_map.mp hx'
    apply hab
    calc a = r.ingredient := (mem_processIngredient_ingredient hr).symm
      _ = r'.ingredient := by
          have := congrArg Prod.fst (hkr.trans hkr'.symm)
          simpa using this
      _ = b := mem_processIngredient_ingredient hr'

/-- C8, counterexample: the claimed at-most-one-record-per-triple invariant
fails when the service returns the same NDC code twice in one code list —
`envC8` returns codes `["X", "X"]` for concept `311036` and the run holds
two records with the identical (ingredient, rxcui, ndc) triple. -/
theorem C8_counterexample_duplicate_ndc :
    ¬ (((runResults envC8).map
      (fun r => (r.ingredient, r.rxcui, r.ndc))).Nodup) := by
  decide

/-- C8, amended: provided every fetched code list is duplicate-free, the
(ingredient, rxcui, ndc) triples of the results collection are pairwise
distinct — and since records are only appended, the same holds at every
point of the run (every prefix). -/
theorem C8_unique_triples (fetch : Request → Json)
    (h : ∀ rx : Json, ((ndcListOf fetch rx).elems).Nodup) :
    ((runCore fetch).map (fun r => (r.ingredient, r.rxcui, r.ndc))).Nodup ∧
    ∀ k, (((runCore fetch).take k).map
      (fun r => (r.ingredient, r.rxcui, r.ndc))).Nodup := by
  have hmain := map_key_runCore_nodup fetch h
  exact ⟨hmain, fun k =>
    List.Nodup.sublist (List.Sublist.map _ (List.take_sublist ..)) hmain⟩

/-- Witness for C8: the all-empty environment has duplicate-free code lists
everywhere, and its run's triples are pairwise distinct. -/
theorem C8_unique_triples_witness :
    ((runCore fetchEmpty).map (fun r => (r.ingredient, r.rxcui, r.ndc))).Nodup :=
  (C8_unique_triples fetchEmpty (fun _ => List.nodup_nil)).1

/-- C9: insertion order is processing order — the run is the concatenation
of per-ingredient blocks in hard-coded list order; each ingredient's block
is the concatenation of per-identifier blocks in discovery (dictionary
insertion) order; the ndc column of an identifier's block lists the fetched
codes in list order; each block's records carry their ingredient; and the
snapshot after any number of ingredients is a prefix of the final run, so
appended records are never reordered or removed. -/
theorem C9_insertion_order (fetch : Request → Json) :
    runCore fetch = (ingredients.map (processIngredient fetch)).flatten ∧
    (∀ ing, processIngredient fetch ing =
      ((relatedRxcuiDict fetch ing).map
        (fun p => recordsForRxcui fetch ing p.1 p.2)).flatten) ∧
    (∀ ing, ∀ r ∈ processIngredient fetch ing, r.ingredient = ing) ∧
    (∀ ing rx d, (recordsForRxcui fetch ing rx d).map OutputRecord.ndc =
      (if (ndcListOf fetch rx).truthy then (ndcListOf fetch rx).elems
       else [Json.null])) ∧
    (∀ k, ∃ rest, runCore fetch = runCoreUpTo fetch k ++ rest) :=
  ⟨runCore_eq_flatten fetch,
    fun ing => processIngredient_eq_flatten fetch ing,
    fun _ _ hr => mem_processIngredient_ingredient hr,
    fun ing rx d => recordsForRxcui_map_ndc fetch ing rx d,
    fun k => ⟨((ingredients.drop k).map (processIngredient fetch)).flatten,
      runCore_eq_upTo_append fetch k⟩⟩

/-- Witness for C9 at the end-to-end example data. -/
theorem C9_insertion_order_witness :
    runCore fetchEx = (ingredients.map (processIngredient fetchEx)).flatten ∧
    ({ ingredient := "Exenatide", rxcui := Json.str "311036",
       ndc := Json.str "00002-1433-01",
       rxcui_description := Json.str "exenatide 250 MCG/ML Injectable Solution",
       ndc_description :=
         Json.str "exenatide 250 MCG/ML Injectable Solution [Byetta]" } :
      OutputRecord).ingredient = "Exenatide" :=
  ⟨(C9_insertion_order fetchEx).1,
    (C9_insertion_order fetchEx).2.2.1 "Exenatide" _ (by decide)⟩
